import Mathlib

/-!
Verification of the GSM transport modem core (serial AT-command SMS sender).

This file shallowly embeds the TypeScript service MessagesService
(src/apps/gsm/src/services/gsm.service.ts and the related service variants)
in Lean 4 and proves the testable properties of its specification.

Conventions of the embedding:
  - JS strings are Lean String values; a message payload is modelled as the
    list of its UTF-16 code units (List Nat), matching the fact that the
    JS expression payload.length counts UTF-16 code units and that
    Buffer.from(text, utf16le) yields two bytes per code unit.
  - JS promises that either fulfill or reject are modelled by explicit sum
    types (CmdResult, CmdOutcome) or by Except.
  - Asynchronous processes (reconnect interval, queue consumer) are modelled
    as state machines stepped by event lists; the single-threaded JS event
    loop means each handler runs atomically, which each step mirrors.
-/

namespace GsmTransport

/-- Checks that the needle is an initial segment of the haystack
(helper of the JS substring test used by String.includes). -/
def matchesAt : List Char → List Char → Bool
  | [], _ => true
  | _ :: _, [] => false
  | n :: ns, h :: hs => (n = h) && matchesAt ns hs

/-- JS String.prototype.includes over char lists: the needle occurs
somewhere in the haystack. -/
def containsTok (needle : List Char) : List Char → Bool
  | [] => matchesAt needle []
  | h :: t => matchesAt needle (h :: t) || containsTok needle t

/-- JS hay.includes(tok) on Lean strings. -/
def strContains (hay tok : String) : Bool :=
  containsTok tok.data hay.data

/-- JS number.startsWith(plus) followed by slice(1): drop one leading plus
sign if present. -/
def stripPlus : List Char → List Char
  | [] => []
  | c :: t => if c = '+' then t else c :: t

/-- The regex test of a nonempty all-digit string, as in the source regex
that matches one or more digits anchored at both ends. -/
def jsIsDigits (s : List Char) : Bool :=
  !s.isEmpty && s.all Char.isDigit

/-- One semi-octet pass of encodePhoneNumber: the JS chain
match(/../g) then map(s onto s[1] + s[0]) then join.  Consecutive pairs are
nibble-swapped; a trailing unpaired character is dropped by the regex. -/
def swapPairs : List Char → List Char
  | a :: b :: rest => b :: a :: swapPairs rest
  | _ => []

/-- encodePhoneNumber from gsm.service.ts (lines 745 to 759), kept faithful
to the source: the digit validation runs on the plus-stripped string
(cleaned), but the filler nibble is appended to, and the nibble swap runs
on, the original argument (number), so a leading plus sign is packed into
the output. -/
def encodePhoneNumber (number : String) : Except String String :=
  let cleaned := stripPlus number.data
  if jsIsDigits cleaned then
    let number2 := if cleaned.length % 2 ≠ 0 then number.data ++ ['F'] else number.data
    Except.ok ⟨swapPairs number2⟩
  else
    Except.error "Invalid phone number: must be numeric"

/-- encodePhoneNumber as the specification words it: strip the leading
plus sign, validate the digits, pad the stripped digit string to even
length with the filler nibble, and swap each pair of the stripped string. -/
def specEncodePhoneNumber (number : String) : Except String String :=
  let stripped := stripPlus number.data
  if jsIsDigits stripped then
    let padded := if stripped.length % 2 ≠ 0 then stripped ++ ['F'] else stripped
    Except.ok ⟨swapPairs padded⟩
  else
    Except.error "Invalid phone number: must be numeric"

/-- Decoder of semi-octet strings as described by the specification:
un-swap each pair of nibbles (the same pair swap again) and strip one
trailing filler nibble F when present. -/
def decodeSemiOctets (s : String) : String :=
  let u := swapPairs s.data
  ⟨if u.getLast? = some 'F' then u.dropLast else u⟩

/-- Uppercase hex digit for a value below 16. -/
def hexDigitUpper (n : Nat) : Char :=
  if n < 10 then Char.ofNat (48 + n) else Char.ofNat (55 + n)

/-- Two uppercase hex digits of one byte. -/
def byteHexUpper (b : Nat) : List Char :=
  [hexDigitUpper (b / 16 % 16), hexDigitUpper (b % 16)]

/-- encodeUCS2 from gsm.service.ts (lines 734 to 743): each UTF-16 code
unit becomes its two bytes in big-endian order, hex encoded uppercase.
The empty text yields the empty string exactly as the early return does. -/
def encodeUCS2 (text : List Nat) : String :=
  ⟨(text.map (fun u => byteHexUpper (u / 256 % 256) ++ byteHexUpper (u % 256))).flatten⟩

/-- Lowercase hex digit for a value below 16 (JS Number.toString(16)). -/
def hexDigitLower (n : Nat) : Char :=
  if n < 10 then Char.ofNat (48 + n) else Char.ofNat (87 + n)

/-- JS n.toString(16): lowercase hex digits, and the single digit 0 for
zero.  The fuel of the helper is the number itself, which always
suffices because the value shrinks by a factor of 16 each step. -/
def natHexLower (n : Nat) : String :=
  if n = 0 then "0" else ⟨hexAuxGo n n⟩
where
  hexAuxGo : Nat → Nat → List Char
    | 0, _ => []
    | fuel + 1, m => if m = 0 then [] else hexAuxGo fuel (m / 16) ++ [hexDigitLower (m % 16)]

/-- JS s.padStart(2, zero digit). -/
def padStart2 (s : String) : String :=
  ⟨List.replicate (2 - s.length) '0' ++ s.data⟩

/-- Result union of buildPDU: the source returns either an object holding
pdu and pduLength or an object holding success false and a message; the
thrown invalid-number error travels separately in Except. -/
inductive PduResult where
  | ok (pdu : String) (pduLength : Nat)
  | tooLong (message : String)
deriving DecidableEq, Repr

/-- buildPDU from gsm.service.ts (lines 761 to 797).  The SMSC number is
plus-stripped before encoding but the recipient is passed to
encodePhoneNumber unstripped, exactly as in the source.  The length check
rejects user data above 140 octets before any frame is assembled. -/
def buildPDU (smsc recipient : String) (message : List Nat) : Except String PduResult := do
  let smscNumber : String := ⟨stripPlus smsc.data⟩
  let smscEncoded ← encodePhoneNumber smscNumber
  let smscAddr := "91" ++ smscEncoded
  let smscOctets := smscAddr.length / 2
  let smscLength := padStart2 (natHexLower smscOctets)
  let recipientNumber : String := ⟨stripPlus recipient.data⟩
  let recipientDigits := recipientNumber.length
  let recipientEncoded ← encodePhoneNumber recipient
  let recipientLength := padStart2 (natHexLower recipientDigits)
  let msgUCS2 := encodeUCS2 message
  let msgOctets := msgUCS2.length / 2
  if 140 < msgOctets then
    return PduResult.tooLong "Message too long for single-part SMS in UCS2 encoding"
  else
    let msgLength := padStart2 (natHexLower msgOctets)
    let pdu := smscLength ++ smscAddr ++ "1100" ++ recipientLength ++ "91" ++
      recipientEncoded ++ "0008" ++ msgLength ++ msgUCS2
    let totalOctets := pdu.length / 2
    return PduResult.ok pdu (totalOctets - 1 - smscOctets)

/-- Resolution of one sendCommand promise: the time is the instant (in
milliseconds since the write) at which the promise settled. -/
inductive CmdResult where
  | resolved (time : Nat) (response : String)
  | rejected (time : Nat) (error : String)
deriving DecidableEq, Repr

/-- True when the promise fulfilled (did not reject). -/
def CmdResult.isResolved : CmdResult → Bool
  | .resolved _ _ => true
  | .rejected _ _ => false

/-- The instant at which the promise settled. -/
def CmdResult.time : CmdResult → Nat
  | .resolved t _ => t
  | .rejected t _ => t

/-- Core of sendCommand from gsm.service.ts (lines 691 to 732).  The
incoming serial lines are given as (arrival time, data) pairs in
chronological order.  Each line is appended to the response accumulator
with a newline, then the waitFor tokens are tried first (resolving with
the accumulated text), then the two error tokens (rejecting).  The timer
set for the configured timeout fires before any line arriving at or after
that instant, and it resolves with the accumulated text, or with the
timeout marker string when nothing was received: the source never rejects
on timeout. -/
def sendCommandRun (waitFor : List String) (timeout : Nat) :
    List (Nat × String) → String → CmdResult
  | [], acc =>
    .resolved timeout (if acc = "" then "Timeout waiting for response" else acc)
  | (t, d) :: rest, acc =>
    if timeout ≤ t then
      .resolved timeout (if acc = "" then "Timeout waiting for response" else acc)
    else
      let acc2 := acc ++ d ++ "\n"
      if waitFor.any (fun w => strContains d w) then
        .resolved t acc2
      else if strContains d "+CME ERROR" || strContains d "+CMS ERROR" then
        .rejected t ("Modem error: " ++ d)
      else
        sendCommandRun waitFor timeout rest acc2

/-- sendCommand on an open port: run the listener over the incoming lines
starting from the empty accumulator. -/
def sendCommand (waitFor : List String) (timeout : Nat)
    (lines : List (Nat × String)) : CmdResult :=
  sendCommandRun waitFor timeout lines ""

/-- Outcome of one sendCommand call as seen by trySendSms: the promise
either fulfilled with the response text or rejected with an error
message. -/
inductive CmdOutcome where
  | resolved (response : String)
  | rejected (error : String)
deriving DecidableEq, Repr

/-- The structured result surfaced to the caller of trySendSms and
sendSms. -/
structure SendResult where
  success : Bool
  message : String
deriving DecidableEq, Repr

/-- Observation record of one trySendSms call: the returned result, the
number of attempts that ran, and every command string handed to
sendCommand in order. -/
structure TryTrace where
  result : SendResult
  attemptsUsed : Nat
  commands : List String
deriving DecidableEq, Repr

/-- JS template interpolation of a possibly undefined string value. -/
def jsShowStr : Option String → String
  | some s => s
  | none => "undefined"

/-- JS template interpolation of a possibly undefined number value. -/
def jsShowNat : Option Nat → String
  | some n => toString n
  | none => "undefined"

/-- The pdu field read off the buildPDU return value by destructuring:
undefined when the value is the validation-failure object. -/
def PduResult.pduField : PduResult → Option String
  | .ok p _ => some p
  | .tooLong _ => none

/-- The pduLength field read off the buildPDU return value by
destructuring: undefined when the value is the validation-failure
object. -/
def PduResult.pduLengthField : PduResult → Option Nat
  | .ok _ l => some l
  | .tooLong _ => none

/-- Result of one try block of trySendSms: either the attempt produced a
caller-visible result, or it threw and control passed to the catch
clause.  Either way the commands handed to sendCommand are recorded. -/
inductive AttemptOut where
  | done (r : SendResult) (cmdsIssued : List String)
  | thrown (e : String) (cmdsIssued : List String)
deriving DecidableEq, Repr

/-- One attempt of trySendSms (the try block of lines 805 to 831): check
the port, build the PDU (a thrown invalid-number error goes to the catch),
destructure pdu and pduLength without inspecting the success flag, issue
the AT+CMGS prompt command and then the body terminated by ctrl-Z, and
classify the resolved body response by searching it for the CMS error
token.  The modem argument gives the outcome of the i-th sendCommand call
of the whole trySendSms invocation. -/
def attemptOnce (modem : Nat → CmdOutcome) (portOpen : Bool)
    (smsc recipient : String) (message : List Nat) (idx : Nat) : AttemptOut :=
  if !portOpen then
    .done { success := false, message := "Port not open. Waiting for reconnect." } []
  else
    match buildPDU smsc recipient message with
    | Except.error e => .thrown e []
    | Except.ok r =>
      let cmd1 := "AT+CMGS=" ++ jsShowNat r.pduLengthField
      match modem idx with
      | .rejected e => .thrown e [cmd1]
      | .resolved _ =>
        let cmd2 := jsShowStr r.pduField ++ "\x1A"
        match modem (idx + 1) with
        | .rejected e => .thrown e [cmd1, cmd2]
        | .resolved result =>
          if strContains result "+CMS ERROR" then
            .done { success := false,
                    message := "Modem returned error while sending SMS: " ++ result }
              [cmd1, cmd2]
          else
            .done { success := true, message := "SMS sent successfully" } [cmd1, cmd2]

/-- Retry driver of trySendSms (lines 799 to 844).  The source recurses
with attempt + 1 while attempt is below maxRetries = 3; here retriesLeft
counts the remaining retries, so the first attempt runs with retriesLeft
= 2 and attempt = 1.  When the last attempt throws, the caller
receives the failure message naming the three attempts.  The five second
backoff between attempts does not affect the computed results and is not
modelled. -/
def trySendSmsGo (modem : Nat → CmdOutcome) (portOpen : Bool)
    (smsc recipient : String) (message : List Nat) :
    Nat → Nat → Nat → List String → TryTrace
  | 0, attempt, idx, cmds =>
    match attemptOnce modem portOpen smsc recipient message idx with
    | .done r cs => { result := r, attemptsUsed := attempt, commands := cmds ++ cs }
    | .thrown e cs =>
      { result := { success := false,
                    message := "Failed to send SMS after 3 attempts: " ++ e },
        attemptsUsed := attempt, commands := cmds ++ cs }
  | retries + 1, attempt, idx, cmds =>
    match attemptOnce modem portOpen smsc recipient message idx with
    | .done r cs => { result := r, attemptsUsed := attempt, commands := cmds ++ cs }
    | .thrown _ cs =>
      trySendSmsGo modem portOpen smsc recipient message retries (attempt + 1)
        (idx + cs.length) (cmds ++ cs)

/-- trySendSms entry point: maxRetries = 3, so two retries remain after
the first attempt. -/
def trySendSms (modem : Nat → CmdOutcome) (portOpen : Bool)
    (smsc recipient : String) (message : List Nat) : TryTrace :=
  trySendSmsGo modem portOpen smsc recipient message 2 1 0 []

/-- JS s.trim(): drop whitespace at both ends. -/
def jsTrim (s : String) : String :=
  ⟨((s.data.dropWhile Char.isWhitespace).reverse.dropWhile Char.isWhitespace).reverse⟩

/-- The regex test for a plus sign, the digits 993 and exactly eight more
digits, anchored at both ends. -/
def matchPlus993 : List Char → Bool
  | '+' :: '9' :: '9' :: '3' :: rest => rest.length = 8 && rest.all Char.isDigit
  | _ => false

/-- What the public sendSms of the PDU-mode service (gsm.service.ts lines
846 to 893) does before any modem traffic: either it returns early with a
validation result, or it proceeds into trySendSms with the SMSC, the full
number and the payload. -/
inductive SendSmsStep where
  | early (r : SendResult)
  | proceed (smsc fullNumber : String) (message : List Nat)
deriving DecidableEq, Repr

/-- The validation phase of the public sendSms (lines 846 to 893): an
eight-digit local number, a payload of at most 70 UTF-16 code units, the
full-number shape, and an eleven-digit SMSC taken from configuration with
the literal fallback (the JS or-operator also replaces an empty configured
string). -/
def sendSmsV3 (smscCfg : Option String) (phonenumber : String)
    (payload : List Nat) : SendSmsStep :=
  let phoneStr := jsTrim phonenumber
  if !(phoneStr.length = 8 && phoneStr.data.all Char.isDigit) then
    .early { success := false, message := "Phone number must be 8 digits" }
  else if 70 < payload.length then
    .early { success := false,
             message := "Message exceeds 70 characters for single-part SMS" }
  else
    let fullNumber := "+993" ++ phoneStr
    if !matchPlus993 fullNumber.data then
      .early { success := false, message := "Invalid Turkmenistan phone number format" }
    else
      let smsc := match smscCfg with
        | some s => if s = "" then "99365999996" else s
        | none => "99365999996"
      if !(smsc.length = 11 && smsc.data.all Char.isDigit) then
        .early { success := false, message := "Invalid SMSC number format" }
      else
        .proceed smsc fullNumber payload

/-- One queued outbound job of the queueing service variants. -/
structure SMSJob where
  payload : String
  phonenumber : String
deriving DecidableEq, Repr

/-- The public sendSms of the queueing service (gsm.service.ts lines 168
to 174): a key different from the configured OTP key makes the function
return undefined without touching the queue; otherwise the job is pushed
and the queued acknowledgement is returned.  Both the request key and the
configured key may be absent, and the JS strict inequality compares the
two option values. -/
def sendSmsV1 (cfgOtpKey key : Option String) (queue : List SMSJob)
    (job : SMSJob) : Option SendResult × List SMSJob :=
  if key ≠ cfgOtpKey then
    (none, queue)
  else
    (some { success := true, message := "Message queued for sending" }, queue ++ [job])

/-- Events driving the send-queue state machines: an external enqueue or
one full pass of the consumer loop body (one job attempted to a terminal
state, including the cooldown that follows it). -/
inductive QueueEvent where
  | enqueue (job : SMSJob)
  | consume
deriving DecidableEq, Repr

/-- State of the queue machinery shared by the two processQueue variants.
The attempted list records the jobs whose send reached a terminal state,
in that order; arrivals records every enqueued job in arrival order; stuck
marks the consumer of the variant without a catch having died on a
rejected send with isProcessing still true. -/
structure QueueState where
  queue : List SMSJob
  processing : Bool
  stuck : Bool
  attempted : List SMSJob
  arrivals : List SMSJob
deriving DecidableEq, Repr

/-- The empty queue state at service start. -/
def initQueueState : QueueState :=
  { queue := [], processing := false, stuck := false, attempted := [], arrivals := [] }

/-- processQueue of gsm.service.ts (lines 182 to 194): the while loop body
has no try around the awaited send, so a rejected send escapes the loop
and leaves isProcessing true forever; afterwards neither the dead loop nor
any future enqueue (which is guarded by isProcessing) processes jobs.  The
ok predicate tells whether the modem send of a given job succeeds. -/
def stepV1 (ok : SMSJob → Bool) (s : QueueState) : QueueEvent → QueueState
  | .enqueue j =>
    { s with queue := s.queue ++ [j], arrivals := s.arrivals ++ [j], processing := true }
  | .consume =>
    if s.stuck || !s.processing then s
    else
      match s.queue with
      | [] => { s with processing := false }
      | j :: rest =>
        if ok j then
          { s with queue := rest, attempted := s.attempted ++ [j] }
        else
          { s with queue := rest, attempted := s.attempted ++ [j], stuck := true }

/-- processQueue of the part_005 service variant (lines 157 to 175): the
awaited send sits inside try with a catch that only logs, so the consumer
always survives a failed job and moves on to the next one in FIFO
order. -/
def stepV5 (s : QueueState) : QueueEvent → QueueState
  | .enqueue j =>
    { s with queue := s.queue ++ [j], arrivals := s.arrivals ++ [j], processing := true }
  | .consume =>
    if !s.processing then s
    else
      match s.queue with
      | [] => { s with processing := false }
      | j :: rest => { s with queue := rest, attempted := s.attempted ++ [j] }

/-- Run of the catch-protected queue over an event list. -/
def runQueueV5 (s : QueueState) (events : List QueueEvent) : QueueState :=
  events.foldl stepV5 s

/-- Run of the unprotected queue over an event list. -/
def runQueueV1 (ok : SMSJob → Bool) (s : QueueState) (events : List QueueEvent) : QueueState :=
  events.foldl (stepV1 ok) s

/-- State observed by the reconnect logic of gsm.service.ts: the
connection flag, the shutdown flag, the consecutive reconnect attempt
counter, how many alert mails were handed to the mail service, and
whether the reconnect interval is installed. -/
structure ReconnectState where
  connected : Bool
  closing : Bool
  attempts : Nat
  mails : Nat
  loopActive : Bool
deriving DecidableEq, Repr

/-- Events of the reconnect machinery: one interval tick, the open event
of the modem, and the close event of the modem. -/
inductive ReconnectEvent where
  | tick
  | openEvent
  | closeEvent
deriving DecidableEq, Repr

/-- One transition of the reconnect machinery.  The tick is the interval
callback of startReconnectLoop (lines 138 to 162): with the connection up
or the service closing it clears the interval, otherwise it increments the
attempt counter and hands exactly one mail to the mail service when the
counter becomes exactly 5.  The open handler (lines 77 to 84) sets the
connection flag, resets the counter to zero and clears the interval.  The
close handler (lines 104 to 111) drops the connection flag and starts the
reconnect loop unless the service is closing; startReconnectLoop is a
no-op when the interval is already installed. -/
def reconnectStep (s : ReconnectState) : ReconnectEvent → ReconnectState
  | .tick =>
    if !s.loopActive then s
    else if s.connected || s.closing then { s with loopActive := false }
    else
      let a := s.attempts + 1
      { s with attempts := a, mails := s.mails + (if a = 5 then 1 else 0) }
  | .openEvent => { s with connected := true, attempts := 0, loopActive := false }
  | .closeEvent =>
    { s with connected := false, loopActive := s.loopActive || !s.closing }

/-- Run of the reconnect machinery over an event list. -/
def runReconnect (s : ReconnectState) (events : List ReconnectEvent) : ReconnectState :=
  events.foldl reconnectStep s

/-- The state right after a close event took the connection down while the
service keeps running: the reconnect loop is installed and no attempt has
been counted yet. -/
def freshReconnectState : ReconnectState :=
  { connected := false, closing := false, attempts := 0, mails := 0, loopActive := true }

/-- The SMSC address octet count of the specification: one type-of-address
octet plus one octet per two digits of the plus-stripped SMSC number,
padded to an even digit count. -/
def smscAddrOctets (smsc : String) : Nat :=
  1 + ((stripPlus smsc.data).length + (stripPlus smsc.data).length % 2) / 2

/-! Helper lemmas. -/

theorem strData_append (s t : String) : (s ++ t).data = s.data ++ t.data := rfl

theorem strLength_append (s t : String) : (s ++ t).length = s.length + t.length := by
  show (s ++ t).data.length = s.data.length + t.data.length
  rw [strData_append, List.length_append]

theorem strData_mk (l : List Char) : (⟨l⟩ : String).data = l := rfl

theorem strLength_mk (l : List Char) : (⟨l⟩ : String).length = l.length := rfl

theorem stripPlus_of_digits (l : List Char) (h : l.all Char.isDigit = true) :
    stripPlus l = l := by
  cases l with
  | nil => rfl
  | cons c t =>
    have hc : c.isDigit = true := by
      simp only [List.all_cons, Bool.and_eq_true] at h
      exact h.1
    have hne : ¬(c = '+') := by
      intro e
      subst e
      exact absurd hc (by decide)
    simp [stripPlus, hne]

theorem swapPairs_length : ∀ l : List Char, (swapPairs l).length = 2 * (l.length / 2)
  | [] => by simp [swapPairs]
  | [_] => by simp [swapPairs]
  | _ :: _ :: rest => by
    simp only [swapPairs, List.length_cons, swapPairs_length rest]
    omega

theorem swapPairs_swapPairs : ∀ l : List Char, l.length % 2 = 0 →
    swapPairs (swapPairs l) = l
  | [], _ => rfl
  | [_], h => by simp at h
  | a :: b :: rest, h => by
    have hr : rest.length % 2 = 0 := by
      simp only [List.length_cons] at h
      omega
    simp [swapPairs, swapPairs_swapPairs rest hr]

theorem matchesAt_append {n h : List Char} (hm : matchesAt n h = true) (t : List Char) :
    matchesAt n (h ++ t) = true := by
  induction n generalizing h with
  | nil => simp [matchesAt]
  | cons x xs ih =>
    cases h with
    | nil => simp [matchesAt] at hm
    | cons y ys =>
      simp only [matchesAt, Bool.and_eq_true] at hm
      simp only [List.cons_append, matchesAt, Bool.and_eq_true]
      exact ⟨hm.1, ih hm.2⟩

theorem containsTok_append_left {nd h : List Char} (hc : containsTok nd h = true)
    (t : List Char) : containsTok nd (h ++ t) = true := by
  induction h with
  | nil =>
    simp only [containsTok] at hc
    cases n : nd with
    | nil => cases t <;> simp [containsTok, matchesAt]
    | cons x xs => rw [n] at hc; simp [matchesAt] at hc
  | cons y ys ih =>
    simp only [containsTok, Bool.or_eq_true] at hc
    rcases hc with hm | hrest
    · simp only [List.cons_append, containsTok, Bool.or_eq_true]
      exact Or.inl (matchesAt_append hm t)
    · simp only [List.cons_append, containsTok, Bool.or_eq_true]
      exact Or.inr (ih hrest)

theorem strContains_append_left (s e tok : String) (h : strContains s tok = true) :
    strContains (s ++ e) tok = true := by
  simpa [strContains, strData_append] using containsTok_append_left h e.data

theorem byteHexUpper_length (b : Nat) : (byteHexUpper b).length = 2 := rfl

theorem encodeUCS2_length (text : List Nat) : (encodeUCS2 text).length = 4 * text.length := by
  induction text with
  | nil => rfl
  | cons u rest ih =>
    simp only [encodeUCS2, String.length] at ih ⊢
    simp only [List.map_cons, List.flatten_cons, List.length_append,
      byteHexUpper_length, ih, List.length_cons]
    omega

theorem padStart2_length (s : String) : (padStart2 s).length = max 2 s.length := by
  simp only [padStart2, String.length, List.length_append, List.length_replicate]
  omega

theorem hexAuxGo_zero : ∀ f : Nat, natHexLower.hexAuxGo f 0 = []
  | 0 => rfl
  | _ + 1 => by simp [natHexLower.hexAuxGo]

theorem hexAuxGo_small (f m : Nat) (h1 : 0 < m) (h2 : m < 16) (hf : 0 < f) :
    natHexLower.hexAuxGo f m = [hexDigitLower m] := by
  cases f with
  | zero => omega
  | succ f2 =>
    have hm0 : ¬(m = 0) := by omega
    have hd : m / 16 = 0 := Nat.div_eq_of_lt h2
    have hmod : m % 16 = m := Nat.mod_eq_of_lt h2
    simp [natHexLower.hexAuxGo, hm0, hd, hmod, hexAuxGo_zero]

theorem hexAuxGo_mid (f m : Nat) (h1 : 16 ≤ m) (h2 : m < 256) (hf : 2 ≤ f) :
    natHexLower.hexAuxGo f m = [hexDigitLower (m / 16), hexDigitLower (m % 16)] := by
  cases f with
  | zero => omega
  | succ f2 =>
    have hm0 : ¬(m = 0) := by omega
    have hq1 : 0 < m / 16 := Nat.div_pos h1 (by omega)
    have hq2 : m / 16 < 16 := by omega
    have hf2 : 0 < f2 := by omega
    simp [natHexLower.hexAuxGo, hm0, hexAuxGo_small f2 (m / 16) hq1 hq2 hf2]

theorem natHexLower_length_le (n : Nat) (h : n < 256) : (natHexLower n).length ≤ 2 := by
  by_cases h0 : n = 0
  · subst h0; decide
  · by_cases h16 : n < 16
    · have := hexAuxGo_small n n (by omega) h16 (by omega)
      simp [natHexLower, h0, String.length, this]
    · have := hexAuxGo_mid n n (by omega) h (by omega)
      simp [natHexLower, h0, String.length, this]

theorem padHex_length (n : Nat) (h : n < 256) : (padStart2 (natHexLower n)).length = 2 := by
  have := natHexLower_length_le n h
  rw [padStart2_length]
  omega

theorem jsIsDigits_iff (l : List Char) :
    jsIsDigits l = true ↔ l ≠ [] ∧ l.all Char.isDigit = true := by
  simp [jsIsDigits, List.isEmpty_iff]

theorem encodePhoneNumber_valid (num : String)
    (h : jsIsDigits (stripPlus num.data) = true) :
    encodePhoneNumber num = Except.ok
      ⟨swapPairs (if (stripPlus num.data).length % 2 ≠ 0
                  then num.data ++ ['F'] else num.data)⟩ := by
  simp [encodePhoneNumber, h]

theorem sendCommandRun_no_token (waitFor : List String) (timeout : Nat) :
    ∀ (lines : List (Nat × String)) (acc : String),
    (∀ p ∈ lines, (∀ w ∈ waitFor, strContains p.2 w = false) ∧
      strContains p.2 "+CME ERROR" = false ∧ strContains p.2 "+CMS ERROR" = false) →
    ∃ r, sendCommandRun waitFor timeout lines acc = CmdResult.resolved timeout r := by
  intro lines
  induction lines with
  | nil => exact fun acc _ => ⟨_, rfl⟩
  | cons p rest ih =>
    intro acc h
    obtain ⟨t, d⟩ := p
    have hp := h (t, d) (List.mem_cons_self _ _)
    have hrest : ∀ q ∈ rest, (∀ w ∈ waitFor, strContains q.2 w = false) ∧
        strContains q.2 "+CME ERROR" = false ∧ strContains q.2 "+CMS ERROR" = false :=
      fun q hq => h q (List.mem_cons_of_mem _ hq)
    by_cases ht : timeout ≤ t
    · exact ⟨if acc = "" then "Timeout waiting for response" else acc,
        by simp [sendCommandRun, ht]⟩
    · have hany : (waitFor.any fun w => strContains d w) = false := by
        rw [List.any_eq_false]
        intro w hw
        simp [hp.1 w hw]
      have step : sendCommandRun waitFor timeout ((t, d) :: rest) acc
          = sendCommandRun waitFor timeout rest (acc ++ d ++ "\n") := by
        simp [sendCommandRun, ht, hany, hp.2.1, hp.2.2]
      rw [step]
      exact ih (acc ++ d ++ "\n") hrest

theorem attemptOnce_first_rejected (modem : Nat → CmdOutcome) (smsc recipient : String)
    (message : List Nat) (pr : PduResult) (idx : Nat) (e : String)
    (hb : buildPDU smsc recipient message = Except.ok pr)
    (hm : modem idx = CmdOutcome.rejected e) :
    attemptOnce modem true smsc recipient message idx
      = AttemptOut.thrown e ["AT+CMGS=" ++ jsShowNat pr.pduLengthField] := by
  simp [attemptOnce, hb, hm]

theorem attemptOnce_cms_error (modem : Nat → CmdOutcome) (smsc recipient : String)
    (message : List Nat) (pr : PduResult) (idx : Nat) (r0 r : String)
    (hb : buildPDU smsc recipient message = Except.ok pr)
    (h0 : modem idx = CmdOutcome.resolved r0)
    (h1 : modem (idx + 1) = CmdOutcome.resolved r)
    (hcms : strContains r "+CMS ERROR" = true) :
    attemptOnce modem true smsc recipient message idx
      = AttemptOut.done
          { success := false, message := "Modem returned error while sending SMS: " ++ r }
          ["AT+CMGS=" ++ jsShowNat pr.pduLengthField, jsShowStr pr.pduField ++ "\x1A"] := by
  simp [attemptOnce, hb, h0, h1, hcms]

theorem queueV5_invariant (events : List QueueEvent) :
    ∀ s : QueueState, s.attempted ++ s.queue = s.arrivals →
    (runQueueV5 s events).attempted ++ (runQueueV5 s events).queue
      = (runQueueV5 s events).arrivals := by
  induction events with
  | nil => intro s h; simpa [runQueueV5] using h
  | cons e rest ih =>
    intro s h
    have step : runQueueV5 s (e :: rest) = runQueueV5 (stepV5 s e) rest := rfl
    rw [step]
    apply ih
    cases e with
    | enqueue j => simp [stepV5, ← h, List.append_assoc]
    | consume =>
      by_cases hp : s.processing
      · cases hq : s.queue with
        | nil => simp [stepV5, hp, hq, ← h, hq]
        | cons j rest2 =>
          rw [hq] at h
          simp [stepV5, hp, hq, ← h, List.append_assoc]
      · simpa [stepV5, hp] using h

theorem reconnect_mails_le (evs : List ReconnectEvent) :
    ∀ s : ReconnectState, (∀ e ∈ evs, e ≠ ReconnectEvent.openEvent) →
    (runReconnect s evs).mails ≤ s.mails + (if s.attempts < 5 then 1 else 0) := by
  induction evs with
  | nil =>
    intro s _
    simp only [runReconnect, List.foldl_nil]
    split <;> omega
  | cons e rest ih =>
    intro s h
    have hrest : ∀ x ∈ rest, x ≠ ReconnectEvent.openEvent :=
      fun x hx => h x (List.mem_cons_of_mem _ hx)
    have he : e ≠ ReconnectEvent.openEvent := h e (List.mem_cons_self _ _)
    have hstep : runReconnect s (e :: rest) = runReconnect (reconnectStep s e) rest := rfl
    rw [hstep]
    cases e with
    | openEvent => exact absurd rfl he
    | closeEvent => exact ih (reconnectStep s ReconnectEvent.closeEvent) hrest
    | tick =>
      by_cases hA : s.loopActive = true
      · by_cases hC : (s.connected || s.closing) = true
        · have hs2 : reconnectStep s ReconnectEvent.tick = { s with loopActive := false } := by
            simp [reconnectStep, hA, hC]
          rw [hs2]
          exact ih { s with loopActive := false } hrest
        · have hs2 : reconnectStep s ReconnectEvent.tick =
              { s with attempts := s.attempts + 1,
                       mails := s.mails + (if s.attempts + 1 = 5 then 1 else 0) } := by
            simp only [reconnectStep, hA, Bool.not_true, Bool.false_eq_true, if_false, hC]
          rw [hs2]
          refine le_trans (ih _ hrest) ?_
          dsimp only
          split_ifs <;> omega
      · have hA2 : s.loopActive = false := by
          cases hl : s.loopActive
          · rfl
          · exact absurd hl hA
        have hs2 : reconnectStep s ReconnectEvent.tick = s := by
          simp [reconnectStep, hA2]
        rw [hs2]
        exact ih s hrest

theorem reconnect_ticks_closed (n : Nat) :
    ∀ s : ReconnectState, s.loopActive = true → s.connected = false → s.closing = false →
    runReconnect s (List.replicate n ReconnectEvent.tick) =
      { s with attempts := s.attempts + n,
               mails := s.mails +
                 (if s.attempts < 5 ∧ 5 ≤ s.attempts + n then 1 else 0) } := by
  induction n with
  | zero =>
    intro s h1 h2 h3
    simp only [List.replicate, runReconnect, List.foldl_nil]
    cases s
    simp only [ReconnectState.mk.injEq, eq_self_iff_true, true_and, and_true]
    constructor
    · omega
    · split_ifs <;> omega
  | succ k ih =>
    intro s h1 h2 h3
    have hrepl : List.replicate (k + 1) ReconnectEvent.tick
        = ReconnectEvent.tick :: List.replicate k ReconnectEvent.tick := rfl
    rw [hrepl]
    have hstep : runReconnect s (ReconnectEvent.tick :: List.replicate k ReconnectEvent.tick)
        = runReconnect (reconnectStep s ReconnectEvent.tick)
            (List.replicate k ReconnectEvent.tick) := rfl
    rw [hstep]
    have hs2 : reconnectStep s ReconnectEvent.tick =
        { s with attempts := s.attempts + 1,
                 mails := s.mails + (if s.attempts + 1 = 5 then 1 else 0) } := by
      simp [reconnectStep, h1, h2, h3]
    rw [hs2]
    rw [ih { s with attempts := s.attempts + 1,
                    mails := s.mails + (if s.attempts + 1 = 5 then 1 else 0) } h1 h2 h3]
    cases s
    simp only [ReconnectState.mk.injEq, eq_self_iff_true, true_and, and_true]
    constructor
    · omega
    · split_ifs <;> omega

theorem exceptBind_ok {a : Type} {b : Type} {e : Type} (x : a) (f : a → Except e b) :
    (Except.ok x >>= f) = f x := rfl

theorem exceptBind_error {a : Type} {b : Type} {e : Type} (err : e)
    (f : a → Except e b) : ((Except.error err : Except e a) >>= f) = Except.error err := rfl

/-! Claim theorems. -/

/-- C1 counterexample: a sendCommand call in which no data ever arrives,
hence no terminator and no error token, does not fail at the deadline: the
promise resolves (fulfills) at the timeout with the marker string, so the
claim that the call fails with CommandTimeout and never resolves as a
success is false on the code. -/
theorem sendCommand_timeout_counterexample :
    sendCommand ["OK"] 5000 [] = CmdResult.resolved 5000 "Timeout waiting for response" ∧
    (sendCommand ["OK"] 5000 []).isResolved = true := by
  constructor <;> rfl

/-- C1 (amended): a sendCommand call during which no terminator token from
waitFor and no error token ever appears in the incoming data settles at
exactly the configured timeout, never before, but it resolves (the promise
fulfills, carrying the accumulated partial response or the timeout marker
string) instead of rejecting with a timeout failure. -/
theorem sendCommand_timeout_resolves_at_deadline (waitFor : List String)
    (timeout : Nat) (lines : List (Nat × String))
    (h : ∀ p ∈ lines, (∀ w ∈ waitFor, strContains p.2 w = false) ∧
      strContains p.2 "+CME ERROR" = false ∧ strContains p.2 "+CMS ERROR" = false) :
    (sendCommand waitFor timeout lines).isResolved = true ∧
    (sendCommand waitFor timeout lines).time = timeout := by
  obtain ⟨r, hr⟩ := sendCommandRun_no_token waitFor timeout lines "" h
  unfold sendCommand
  rw [hr]
  exact ⟨rfl, rfl⟩

/-- C1 witness: a concrete run with one non-token line settles resolved at
the 5000 ms deadline. -/
theorem sendCommand_timeout_witness :
    (sendCommand ["OK"] 5000 [(1000, "+CPIN: READY")]).isResolved = true ∧
    (sendCommand ["OK"] 5000 [(1000, "+CPIN: READY")]).time = 5000 :=
  sendCommand_timeout_resolves_at_deadline ["OK"] 5000 [(1000, "+CPIN: READY")] (by decide)

/-- C3: encodePhoneNumber does not strip the leading plus sign from what it
packs.  On the international number the code validates the stripped digits
but appends the filler to and nibble-swaps the original string, producing
9+3956214365 (the plus sign packed into the output and the filler dropped),
while the behaviour the claim describes, restated by
specEncodePhoneNumber, yields 9963153254F6.  The two outputs differ, so
the claim fails on the code. -/
theorem encodePhoneNumber_plus_not_stripped :
    encodePhoneNumber "+99365123456" = Except.ok "9+3956214365" ∧
    specEncodePhoneNumber "+99365123456" = Except.ok "9963153254F6" ∧
    strContains "9+3956214365" "+" = true ∧
    ("9+3956214365" : String) ≠ "9963153254F6" := by
  refine ⟨rfl, rfl, rfl, ?_⟩
  decide

/-- C9: the public sendSms of the queueing service returns undefined and
leaves the message queue unchanged whenever the request key differs from
the configured OTP key: no job is enqueued and the caller receives no
structured result at all. -/
theorem sendSmsV1_wrong_key_drops (cfgOtpKey key : Option String)
    (queue : List SMSJob) (job : SMSJob) (h : key ≠ cfgOtpKey) :
    sendSmsV1 cfgOtpKey key queue job = (none, queue) := by
  simp [sendSmsV1, h]

/-- C9 witness: a concrete call with a wrong key returns undefined and the
queue stays empty. -/
theorem sendSmsV1_wrong_key_witness :
    sendSmsV1 (some "secret") (some "wrong") []
      { payload := "Hello", phonenumber := "65123456" } = (none, []) :=
  sendSmsV1_wrong_key_drops (some "secret") (some "wrong") []
    { payload := "Hello", phonenumber := "65123456" } (by decide)

set_option maxRecDepth 8192 in
/-- C2: on a 71-code-unit text (142 UCS-2 octets) buildPDU does return the
message-too-long validation failure and no PDU frame, but the failure is
not reported to the caller of the job: trySendSms never reads the success
flag, destructures pdu and pduLength as undefined, writes AT+CMGS=undefined
followed by undefined ctrl-Z to the modem, and when the modem stays silent
(both sendCommand promises resolve with the timeout marker, which contains
no CMS error token) the caller is told the oversized message was sent
successfully on the first attempt. -/
theorem buildPDU_tooLong_not_reported :
    buildPDU "99365999996" "+99365123456" (List.replicate 71 72)
      = Except.ok (PduResult.tooLong
          "Message too long for single-part SMS in UCS2 encoding") ∧
    trySendSms (fun _ => CmdOutcome.resolved "Timeout waiting for response") true
        "99365999996" "+99365123456" (List.replicate 71 72)
      = { result := { success := true, message := "SMS sent successfully" },
          attemptsUsed := 1,
          commands := ["AT+CMGS=undefined", "undefined\x1A"] } := by
  constructor <;> rfl

/-- C4 counterexample: with the session ready and the modem answering the
prompt and then a CMS error code 38 to the body, the job is not retried
and the caller never sees a message naming three attempts: trySendSms
returns after a single attempt with the modem-returned-error message,
because the CMS error token is one of the waitFor terminators of the body
command and therefore resolves it. -/
theorem trySendSms_cms_error_counterexample :
    trySendSms
        (fun i => if i = 0 then CmdOutcome.resolved "> "
                  else CmdOutcome.resolved "+CMS ERROR: 38\n")
        true "99365999996" "+99365123456" [72, 101, 108, 108, 111]
      = { result := { success := false,
                      message := "Modem returned error while sending SMS: +CMS ERROR: 38\n" },
          attemptsUsed := 1,
          commands := ["AT+CMGS=23",
            "07919963959999F611000b919+395621436500080a00480065006C006C006F\x1A"] } ∧
    strContains "Modem returned error while sending SMS: +CMS ERROR: 38\n"
        "after 3 attempts" = false := by
  constructor <;> rfl

/-- C4 (amended): when the response to the transmitted body contains the
CMS error token, the attempt is recorded as failed but the job is not
retried: the token is a waitFor terminator of the body command, so the
promise resolves and trySendSms returns the modem-returned-error failure
on the first attempt.  The retry path with the fixed backoff runs only
when a sendCommand call rejects; when all three attempts reject, the
caller receives success false with a message containing the text naming
the three attempts. -/
theorem trySendSms_cms_no_retry_reject_retries :
    (∀ (modem : Nat → CmdOutcome) (smsc recipient : String) (message : List Nat)
        (pr : PduResult) (r0 r : String),
      buildPDU smsc recipient message = Except.ok pr →
      modem 0 = CmdOutcome.resolved r0 →
      modem 1 = CmdOutcome.resolved r →
      strContains r "+CMS ERROR" = true →
      (trySendSms modem true smsc recipient message).result
          = { success := false, message := "Modem returned error while sending SMS: " ++ r } ∧
        (trySendSms modem true smsc recipient message).attemptsUsed = 1) ∧
    (∀ (modem : Nat → CmdOutcome) (smsc recipient : String) (message : List Nat)
        (pr : PduResult) (e : String),
      buildPDU smsc recipient message = Except.ok pr →
      (∀ i, modem i = CmdOutcome.rejected e) →
      (trySendSms modem true smsc recipient message).result
          = { success := false, message := "Failed to send SMS after 3 attempts: " ++ e } ∧
        (trySendSms modem true smsc recipient message).attemptsUsed = 3 ∧
        strContains (trySendSms modem true smsc recipient message).result.message
          "after 3 attempts" = true) := by
  constructor
  · intro modem smsc recipient message pr r0 r hb h0 h1 hcms
    have ha := attemptOnce_cms_error modem smsc recipient message pr 0 r0 r hb h0 h1 hcms
    simp [trySendSms, trySendSmsGo, ha]
  · intro modem smsc recipient message pr e hb hm
    have h0 := attemptOnce_first_rejected modem smsc recipient message pr 0 e hb (hm 0)
    have h1 := attemptOnce_first_rejected modem smsc recipient message pr 1 e hb (hm 1)
    have h2 := attemptOnce_first_rejected modem smsc recipient message pr 2 e hb (hm 2)
    have hrun : trySendSms modem true smsc recipient message
        = { result := { success := false,
                        message := "Failed to send SMS after 3 attempts: " ++ e },
            attemptsUsed := 3,
            commands := ["AT+CMGS=" ++ jsShowNat pr.pduLengthField,
              "AT+CMGS=" ++ jsShowNat pr.pduLengthField,
              "AT+CMGS=" ++ jsShowNat pr.pduLengthField] } := by
      simp [trySendSms, trySendSmsGo, h0, h1, h2]
    rw [hrun]
    refine ⟨rfl, rfl, ?_⟩
    exact strContains_append_left "Failed to send SMS after 3 attempts: " e
      "after 3 attempts" (by rfl)

/-- C4 witness: both branches of the amended statement at concrete inputs:
a modem answering a CMS error to the body fails in one attempt, and a
modem whose write always rejects exhausts the three attempts. -/
theorem trySendSms_cms_witness :
    ((trySendSms (fun i => if i = 0 then CmdOutcome.resolved ">"
          else CmdOutcome.resolved "+CMS ERROR: 500\n") true
        "99365999996" "+99365123456" [66]).attemptsUsed = 1) ∧
    ((trySendSms (fun _ => CmdOutcome.rejected "write EBADF") true
        "99365999996" "+99365123456" [66]).attemptsUsed = 3) := by
  constructor
  · exact (trySendSms_cms_no_retry_reject_retries.1
      (fun i => if i = 0 then CmdOutcome.resolved ">"
        else CmdOutcome.resolved "+CMS ERROR: 500\n")
      "99365999996" "+99365123456" [66]
      (PduResult.ok "07919963959999F611000b919+39562143650008020042" 15)
      ">" "+CMS ERROR: 500\n" (by rfl) (by rfl) (by rfl) (by rfl)).2
  · exact (trySendSms_cms_no_retry_reject_retries.2
      (fun _ => CmdOutcome.rejected "write EBADF")
      "99365999996" "+99365123456" [66]
      (PduResult.ok "07919963959999F611000b919+39562143650008020042" 15)
      "write EBADF" (by rfl) (fun i => rfl)).2.1

/-- C6: the part_005 queue consumer, whose awaited send is wrapped in try
with a logging catch, attempts jobs exactly in arrival order in every run
(the attempted list followed by the still-queued list is always the
arrival list), while the processQueue of gsm.service.ts lacks that catch:
in the concrete run where job A fails, the consumer dies with isProcessing
left true, job A is the only attempted job and jobs B and C stay queued
forever, so completion order A, B, C is not reached there. -/
theorem processQueue_fifo_and_stuck :
    (∀ events : List QueueEvent,
      (runQueueV5 initQueueState events).attempted ++ (runQueueV5 initQueueState events).queue
        = (runQueueV5 initQueueState events).arrivals) ∧
    (runQueueV1 (fun j => !(j.payload = "A")) initQueueState
        [QueueEvent.enqueue { payload := "A", phonenumber := "61111111" },
         QueueEvent.enqueue { payload := "B", phonenumber := "62222222" },
         QueueEvent.enqueue { payload := "C", phonenumber := "63333333" },
         QueueEvent.consume, QueueEvent.consume, QueueEvent.consume]
      = { queue := [{ payload := "B", phonenumber := "62222222" },
                    { payload := "C", phonenumber := "63333333" }],
          processing := true, stuck := true,
          attempted := [{ payload := "A", phonenumber := "61111111" }],
          arrivals := [{ payload := "A", phonenumber := "61111111" },
                       { payload := "B", phonenumber := "62222222" },
                       { payload := "C", phonenumber := "63333333" }] }) := by
  constructor
  · intro events
    exact queueV5_invariant events initQueueState rfl
  · rfl

/-- C5: the reconnect loop hands the alert mail to the mail service
exactly once when the consecutive-failure counter first reaches 5, and
never again on later ticks while no open event has reset the counter:
first, over any event run without an open event the mail count rises by at
most one; second, a tick in a live failing loop produces a mail exactly
when the counter stood at 4; third, from a fresh failing loop, n ticks
produce exactly one mail when n reaches 5 and none before. -/
theorem reconnect_alert_exactly_once :
    (∀ (s : ReconnectState) (evs : List ReconnectEvent),
      (∀ e ∈ evs, e ≠ ReconnectEvent.openEvent) →
      (runReconnect s evs).mails ≤ s.mails + 1) ∧
    (∀ s : ReconnectState, s.loopActive = true → s.connected = false → s.closing = false →
      ((reconnectStep s ReconnectEvent.tick).mails = s.mails + 1 ↔ s.attempts = 4)) ∧
    (∀ n : Nat,
      (runReconnect freshReconnectState (List.replicate n ReconnectEvent.tick)).mails
        = if 5 ≤ n then 1 else 0) := by
  refine ⟨?_, ?_, ?_⟩
  · intro s evs h
    have := reconnect_mails_le evs s h
    split_ifs at this <;> omega
  · intro s h1 h2 h3
    have hs2 : reconnectStep s ReconnectEvent.tick =
        { s with attempts := s.attempts + 1,
                 mails := s.mails + (if s.attempts + 1 = 5 then 1 else 0) } := by
      simp [reconnectStep, h1, h2, h3]
    rw [hs2]
    dsimp only
    split_ifs <;> omega
  · intro n
    rw [reconnect_ticks_closed n freshReconnectState rfl rfl rfl]
    dsimp only [freshReconnectState]
    split_ifs <;> omega

/-- C5 witness: over a concrete open-free run the mail count stays at most
one above its start; a tick at counter 4 mails; and seven fresh failing
ticks produce exactly one mail. -/
theorem reconnect_alert_witness :
    (runReconnect freshReconnectState
        [ReconnectEvent.closeEvent, ReconnectEvent.tick, ReconnectEvent.tick]).mails
      ≤ freshReconnectState.mails + 1 ∧
    ((reconnectStep { connected := false, closing := false, attempts := 4, mails := 0, loopActive := true } ReconnectEvent.tick).mails
      = ({ connected := false, closing := false, attempts := 4, mails := 0, loopActive := true } : ReconnectState).mails + 1) ∧
    (runReconnect freshReconnectState
        (List.replicate 7 ReconnectEvent.tick)).mails = 1 := by
  refine ⟨?_, ?_, ?_⟩
  · exact reconnect_alert_exactly_once.1 freshReconnectState
      [ReconnectEvent.closeEvent, ReconnectEvent.tick, ReconnectEvent.tick] (by decide)
  · exact (reconnect_alert_exactly_once.2.1
      { connected := false, closing := false, attempts := 4, mails := 0, loopActive := true }
      rfl rfl rfl).2 rfl
  · have := reconnect_alert_exactly_once.2.2 7
    simpa using this

/-- C8: for every nonempty digit string d the semi-octet output of
encodePhoneNumber round-trips: un-swapping each pair of nibbles and
stripping the trailing filler nibble when present recovers d exactly. -/
theorem encodePhoneNumber_roundtrip (d : String) (hne : d.data ≠ [])
    (hdig : d.data.all Char.isDigit = true) :
    ∃ e, encodePhoneNumber d = Except.ok e ∧ decodeSemiOctets e = d := by
  have hsp : stripPlus d.data = d.data := stripPlus_of_digits d.data hdig
  have hjs : jsIsDigits (stripPlus d.data) = true := by
    rw [hsp]
    exact (jsIsDigits_iff d.data).2 ⟨hne, hdig⟩
  have henc := encodePhoneNumber_valid d hjs
  rw [hsp] at henc
  rcases List.eq_nil_or_concat d.data with h0 | ⟨L, b, hLb0⟩
  · exact absurd h0 hne
  have hLb : d.data = L ++ [b] := by simpa using hLb0
  have hb : b.isDigit = true := by
    have hall := hdig
    rw [hLb, List.all_append] at hall
    simp only [List.all_cons, List.all_nil, Bool.and_eq_true] at hall
    exact hall.2.1
  have hbF : ¬(b = 'F') := by
    intro e
    subst e
    exact absurd hb (by decide)
  by_cases hpar : d.data.length % 2 = 0
  · have henc2 : encodePhoneNumber d = Except.ok ⟨swapPairs d.data⟩ := by
      rw [if_neg (by omega)] at henc
      exact henc
    refine ⟨_, henc2, ?_⟩
    show (⟨_⟩ : String) = d
    have hu : swapPairs (swapPairs d.data) = d.data := swapPairs_swapPairs d.data hpar
    have hlast : d.data.getLast? = some b := by
      rw [hLb]
      exact List.getLast?_concat L
    have hcond : ¬(d.data.getLast? = some 'F') := by
      rw [hlast]
      simpa using hbF
    simp only [decodeSemiOctets, hu, hcond, if_false]
  · have henc2 : encodePhoneNumber d = Except.ok ⟨swapPairs (d.data ++ ['F'])⟩ := by
      rw [if_pos (by omega)] at henc
      exact henc
    refine ⟨_, henc2, ?_⟩
    show (⟨_⟩ : String) = d
    have heven : (d.data ++ ['F']).length % 2 = 0 := by
      rw [List.length_append]
      simp only [List.length_cons, List.length_nil]
      omega
    have hu : swapPairs (swapPairs (d.data ++ ['F'])) = d.data ++ ['F'] :=
      swapPairs_swapPairs (d.data ++ ['F']) heven
    have hlast : (d.data ++ ['F']).getLast? = some 'F' := List.getLast?_concat d.data
    simp only [decodeSemiOctets, hu, hlast, if_true]
    rw [List.dropLast_concat]

/-- C8 witness: the concrete eleven-digit SMSC number round-trips through
encode and decode. -/
theorem encodePhoneNumber_roundtrip_witness :
    ∃ e, encodePhoneNumber "99365999996" = Except.ok e ∧
      decodeSemiOctets e = "99365999996" :=
  encodePhoneNumber_roundtrip "99365999996" (by decide) (by decide)

/-- C10: the public sendSms of the PDU-mode service rejects every payload
of more than 70 UTF-16 code units before building a PDU (it never proceeds
into trySendSms with such a payload), and for every payload of at most 70
code units buildPDU never takes the 140-octet message-too-long branch,
because encodeUCS2 yields exactly two octets per code unit; hence that
branch is unreachable on every call path through sendSms. -/
theorem sendSms_tooLong_unreachable :
    (∀ (smscCfg : Option String) (phonenumber : String) (payload : List Nat),
      70 < payload.length →
      ∀ s f p, sendSmsV3 smscCfg phonenumber payload ≠ SendSmsStep.proceed s f p) ∧
    (∀ (smscCfg : Option String) (phonenumber : String) (payload : List Nat)
        (s f : String) (p : List Nat),
      sendSmsV3 smscCfg phonenumber payload = SendSmsStep.proceed s f p →
      ∀ m, buildPDU s f p ≠ Except.ok (PduResult.tooLong m)) := by
  constructor
  · intro cfg pn payload h s f p heq
    simp only [sendSmsV3] at heq
    split_ifs at heq
  · intro cfg pn payload s f p heq m hbad
    have hkey : p = payload ∧ ¬(70 < payload.length) := by
      simp only [sendSmsV3] at heq
      split_ifs at heq
      simp_all
    obtain ⟨hp, hlen⟩ := hkey
    subst hp
    revert hbad
    cases hsm : encodePhoneNumber (⟨stripPlus s.data⟩ : String) with
    | error e => simp [buildPDU, hsm, exceptBind_error]
    | ok e1 =>
      cases hrc : encodePhoneNumber f with
      | error e => simp [buildPDU, hsm, hrc, exceptBind_ok, exceptBind_error]
      | ok e2 =>
        have hms : ¬(140 < (encodeUCS2 p).length / 2) := by
          rw [encodeUCS2_length]
          omega
        simp [buildPDU, hsm, hrc, hms, exceptBind_ok]

/-- C10 witness: a 71-unit payload is rejected before any PDU is built,
and the five-unit payload that sendSms admits never triggers the
message-too-long branch of buildPDU. -/
theorem sendSms_tooLong_unreachable_witness :
    sendSmsV3 (some "99365999996") "65123456" (List.replicate 71 72)
      ≠ SendSmsStep.proceed "99365999996" "+99365123456" (List.replicate 71 72) ∧
    buildPDU "99365999996" "+99365123456" [72, 101, 108, 108, 111]
      ≠ Except.ok (PduResult.tooLong
          "Message too long for single-part SMS in UCS2 encoding") := by
  constructor
  · exact sendSms_tooLong_unreachable.1 (some "99365999996") "65123456"
      (List.replicate 71 72) (by simp) "99365999996" "+99365123456"
      (List.replicate 71 72)
  · exact sendSms_tooLong_unreachable.2 (some "99365999996") "65123456"
      [72, 101, 108, 108, 111] "99365999996" "+99365123456"
      [72, 101, 108, 108, 111] (by rfl)
      "Message too long for single-part SMS in UCS2 encoding"

/-- C7: for every valid SMSC and destination number and every text whose
UCS-2 encoding is at most 140 octets, buildPDU succeeds, and the reported
pduLength (the commandLength handed to AT+CMGS) equals the total octet
count of the produced PDU minus one (the SMSC length byte) minus the SMSC
address octets including the type-of-address byte, here computed
independently from the input SMSC digits by smscAddrOctets. -/
theorem buildPDU_commandLength (smsc recipient : String) (message : List Nat)
    (hs1 : jsIsDigits (stripPlus smsc.data) = true)
    (hs2 : (stripPlus smsc.data).length ≤ 100)
    (hr1 : jsIsDigits (stripPlus recipient.data) = true)
    (hr2 : (stripPlus recipient.data).length ≤ 100)
    (hm : message.length ≤ 70) :
    ∃ pdu pl, buildPDU smsc recipient message = Except.ok (PduResult.ok pdu pl) ∧
      pdu.length = 2 * (1 + smscAddrOctets smsc + pl) := by
  have hds2 : stripPlus (stripPlus smsc.data) = stripPlus smsc.data :=
    stripPlus_of_digits _ ((jsIsDigits_iff _).1 hs1).2
  have hjs1 : jsIsDigits (stripPlus ((⟨stripPlus smsc.data⟩ : String)).data) = true := by
    rw [strData_mk, hds2]
    exact hs1
  have henc1 := encodePhoneNumber_valid ⟨stripPlus smsc.data⟩ hjs1
  rw [strData_mk, hds2] at henc1
  have henc2 := encodePhoneNumber_valid recipient hr1
  have hms : ¬(140 < (encodeUCS2 message).length / 2) := by
    rw [encodeUCS2_length]
    omega
  simp only [buildPDU, henc1, henc2, exceptBind_ok]
  rw [if_neg hms]
  refine ⟨_, _, rfl, ?_⟩
  simp only [strLength_append, strLength_mk, List.length_append]
  simp only [show ("91" : String).length = 2 from rfl,
    show ("1100" : String).length = 4 from rfl,
    show ("0008" : String).length = 4 from rfl]
  have hE1 : (swapPairs (if (stripPlus smsc.data).length % 2 ≠ 0
      then stripPlus smsc.data ++ ['F'] else stripPlus smsc.data)).length
      = (stripPlus smsc.data).length + (stripPlus smsc.data).length % 2 := by
    by_cases hp : (stripPlus smsc.data).length % 2 = 0
    · rw [if_neg (by omega), swapPairs_length]
      omega
    · rw [if_pos (by omega), swapPairs_length, List.length_append]
      simp only [List.length_cons, List.length_nil]
      omega
  rw [hE1]
  have hE2 : (swapPairs (if (stripPlus recipient.data).length % 2 ≠ 0
      then recipient.data ++ ['F'] else recipient.data)).length
      = 2 * ((if (stripPlus recipient.data).length % 2 ≠ 0
          then recipient.data ++ ['F'] else recipient.data).length / 2) :=
    swapPairs_length _
  rw [hE2]
  rw [encodeUCS2_length]
  have hP1 : (padStart2 (natHexLower ((2 + ((stripPlus smsc.data).length
      + (stripPlus smsc.data).length % 2)) / 2))).length = 2 :=
    padHex_length _ (by omega)
  rw [hP1]
  have hP2 : (padStart2 (natHexLower (stripPlus recipient.data).length)).length = 2 :=
    padHex_length _ (by omega)
  rw [hP2]
  have hP3 : (padStart2 (natHexLower (4 * message.length / 2))).length = 2 :=
    padHex_length _ (by omega)
  rw [hP3]
  simp only [smscAddrOctets]
  omega

/-- C7 witness: the five-character message through the concrete SMSC and
destination of the service yields a PDU whose reported length obeys the
octet-count equation. -/
theorem buildPDU_commandLength_witness :
    ∃ pdu pl, buildPDU "99365999996" "+99365123456" [72, 101, 108, 108, 111]
        = Except.ok (PduResult.ok pdu pl) ∧
      pdu.length = 2 * (1 + smscAddrOctets "99365999996" + pl) :=
  buildPDU_commandLength "99365999996" "+99365123456" [72, 101, 108, 108, 111]
    (by decide) (by decide) (by decide) (by decide) (by decide)

end GsmTransport
